import Mathlib

/-!
Verification of the `scl` (search container logs) repository against its
natural-language specification.

The embedding below is a shallow model of `src/main.go`.  External effects
(the `docker ps` enumeration subprocess, the per-container `docker logs`
subprocesses) are passed in as explicit values; the nondeterministic
distribution of a container's log lines over the parallel matcher workers is
passed in as an explicit schedule (one list of lines per worker).  All
definitions are executable.
-/

/-- Go struct `Result` (main.go lines 17-22): one match record. -/
structure Result where
  containerID : String
  containerName : String
  line : String
  lineNum : Int
deriving DecidableEq

/-- Batch-mode aggregate (main.go lines 160-168): the grouping map built by
`runSearch` together with the `totalMatches` counter.  The grouping map is
modelled as an association list keyed by the distinct container names in the
delivery stream (Go map iteration order is unspecified, so only the key set
and the per-key sequences are meaningful). -/
structure AggregateResult where
  groups : List (String × List Result)
  totalMatches : Nat
deriving DecidableEq

/-- Outcome of one whole run, as observed at process level. -/
inductive RunResult where
  | fatal (msg : String)
  | streaming
  | batch (agg : AggregateResult)
deriving DecidableEq

/-- main.go line 103-104: `os.Exit(1)` when `rootCmd.Execute()` errors,
implicit exit 0 otherwise. -/
def exitCode : RunResult → Nat
  | .fatal _ => 1
  | _ => 0

/-- Model of Go `strings.Contains(s, sub)`: some window of `s.data` of the
length of `sub.data` equals `sub.data`. -/
def stringsContains (s sub : String) : Bool :=
  (List.range (s.data.length - sub.data.length + 1)).any
    (fun i => (s.data.drop i).take sub.data.length == sub.data)

/-- Model of Go `strings.HasSuffix(s, suf)`. -/
def hasSuffix (s suf : String) : Bool :=
  decide (suf.data.length ≤ s.data.length) &&
    (s.data.drop (s.data.length - suf.data.length) == suf.data)

/-- Model of Go `strings.Split(s, sep)` for a one-character separator
(the program only splits on ":" and on a newline). -/
def splitOnChar (sep : Char) : List Char → List (List Char)
  | [] => [[]]
  | c :: rest =>
    let r := splitOnChar sep rest
    if c = sep then [] :: r
    else
      match r with
      | h :: t => (c :: h) :: t
      | [] => [[c]]

/-- Model of Go `strings.TrimSpace` (restricted to ASCII whitespace, which is
all the enumeration output can contain). -/
def trimSpace (s : String) : String :=
  String.mk (((s.data.dropWhile Char.isWhitespace).reverse.dropWhile
    Char.isWhitespace).reverse)

/-- main.go lines 87-99: the `PreRunE` hook.  The Go code nests the three
`HasSuffix` tests inside `sincePeriod != ""`; the conjunction below is the
same guard. -/
def preRunE (sincePeriod : String) (tailLines : Int) : Except String Unit :=
  if sincePeriod != "" &&
      (!(hasSuffix sincePeriod "h") && !(hasSuffix sincePeriod "m") &&
        !(hasSuffix sincePeriod "s")) then
    .error "invalid time format for --since flag. Use h for hours, m for minutes, s for seconds (e.g., 1h, 30m, 24h)"
  else if tailLines < 0 then
    .error "tail lines must be >= 0"
  else
    .ok ()

/-- main.go lines 68-78: the validation part of `rootCmd.RunE`.  Returns the
effective pattern (the lone positional argument, or the empty default). -/
def runEValidate (args : List String) (follow : Bool) (tailLines : Int)
    (sincePeriod : String) : Except String String :=
  if args.length > 1 then
    .error "only one pattern argument is allowed"
  else
    let pattern := args.headD ""
    if pattern == "" && !follow && tailLines == 0 && sincePeriod == "" then
      .error "at least one of: pattern, --follow, --tail, or --since is required"
    else
      .ok pattern

/-- main.go lines 242-255: `getDockerArgs`, translated clause by clause. -/
def getDockerArgs (follow : Bool) (sincePeriod : String) (tailLines : Int)
    (containerID : String) : List String :=
  let cmdArgs := ["logs"]
  let cmdArgs := if follow then cmdArgs ++ ["--follow"] else cmdArgs
  let cmdArgs := if sincePeriod ≠ "" then cmdArgs ++ ["--since", sincePeriod] else cmdArgs
  let cmdArgs := if 0 < tailLines then cmdArgs ++ ["--tail", toString tailLines] else cmdArgs
  cmdArgs ++ [containerID]

/-- The argument list as the spec describes it (section 4.3 and section 6):
`logs`, then `--follow` iff follow, then `--since value` iff since is set,
then `--tail N` iff tail is positive, then the source id.  Stated from the
spec's words, for comparison with `getDockerArgs`. -/
def producerArgsSpec (follow : Bool) (sincePeriod : String) (tailLines : Int)
    (containerID : String) : List String :=
  ["logs"] ++ (if follow then ["--follow"] else [])
    ++ (if sincePeriod ≠ "" then ["--since", sincePeriod] else [])
    ++ (if 0 < tailLines then ["--tail", toString tailLines] else [])
    ++ [containerID]

/-- The argv of the enumeration subprocess (main.go line 258). -/
def psInvocation : List String :=
  ["docker", "ps", "--format", "\x7b\x7b.ID\x7d\x7d:\x7b\x7b.Names\x7d\x7d"]

/-- main.go lines 257-264: `getContainers`, over the result of the external
`docker ps` call. -/
def getContainers (output : Except String String) : Except String (List String) :=
  match output with
  | .error e => .error ("error listing containers: " ++ e)
  | .ok out =>
      .ok ((splitOnChar '\n' (trimSpace out).data).map (fun l => String.mk l))

/-- One matcher worker goroutine (main.go lines 215-229): it keeps a private
`lineNum` counter starting at 1 and bumps it once per line it receives,
emitting a `Result` for each received line that contains the pattern.  The
argument list is the subsequence of the source's lines this worker receives
from the `lines` channel. -/
def matcherWorker (containerID containerName pattern : String) :
    Int → List String → List Result
  | _, [] => []
  | lineNum, line :: rest =>
    (if stringsContains line pattern then
      [⟨containerID, containerName, line, lineNum⟩]
     else [])
      ++ matcherWorker containerID containerName pattern (lineNum + 1) rest

/-- main.go lines 192-240: the per-source pipeline of `searchContainerLogs`,
given the distribution of the delivered lines over the worker pool (`parts`
has one entry per worker: the subsequence of lines that worker received).
The emitted records are collected per worker; the live interleaving on the
`results` channel is an arbitrary merge of these, so list-level order is not
meaningful, only the multiset of records is. -/
def searchContainerLogs (containerID containerName pattern : String)
    (parts : List (List String)) : List Result :=
  (parts.map (matcherWorker containerID containerName pattern 1)).flatten

/-- The spawn loop of `runSearch` (main.go lines 134-146) restricted to its
parsing behaviour: skip empty entries, split each remaining entry on ":" and
take `parts[0]`/`parts[1]`.  `parts[1]` panics (modelled as `none`) when the
entry has no ":". -/
def enumerateSources : List String → Option (List (String × String))
  | [] => some []
  | c :: cs =>
    if c = "" then enumerateSources cs
    else
      match splitOnChar ':' c.data with
      | id :: name :: _ =>
          (enumerateSources cs).map (fun rest => (String.mk id, String.mk name) :: rest)
      | _ => none

/-- The spawn loop of `runSearch` (main.go lines 134-146) in full: for every
non-empty entry it parses `id:name`, records the `docker logs ...` invocation
and runs that source's pipeline (`searchContainerLogs`) on the schedule's
worker distribution for that id.  A colonless entry is an out-of-range panic,
modelled as `none` in the second component; invocations made before the
panicking entry are kept. -/
def spawnAll (pattern : String) (follow : Bool) (sincePeriod : String)
    (tailLines : Int) (sched : String → List (List String)) :
    List String → List (List String) × Option (List Result)
  | [] => ([], some [])
  | c :: cs =>
    if c = "" then spawnAll pattern follow sincePeriod tailLines sched cs
    else
      match splitOnChar ':' c.data with
      | id :: name :: _ =>
        let idS := String.mk id
        let inv := "docker" :: getDockerArgs follow sincePeriod tailLines idS
        let rs := searchContainerLogs idS (String.mk name) pattern (sched idS)
        let rest := spawnAll pattern follow sincePeriod tailLines sched cs
        (inv :: rest.1, rest.2.map (fun more => rs ++ more))
      | _ => ([], none)

/-- main.go lines 160-168: batch-mode fan-in.  `rs` is the stream of records
received on the `results` channel; the map groups them by container name and
`totalMatches` counts every received record. -/
def collectBatch (rs : List Result) : AggregateResult :=
  { groups := ((rs.map (fun r => r.containerName)).dedup).map
      (fun n => (n, rs.filter (fun r => r.containerName == n))),
    totalMatches := rs.length }

/-- main.go lines 108-190: `runSearch`, from enumeration to outcome.  `ps` is
the result of the external `docker ps` call, `sched` the per-source worker
distribution of the delivered log lines. -/
def runSearch (pattern : String) (follow : Bool) (sincePeriod : String)
    (tailLines : Int) (ps : Except String String)
    (sched : String → List (List String)) : RunResult × List (List String) :=
  match getContainers ps with
  | .error e => (.fatal e, [psInvocation])
  | .ok containers =>
    match spawnAll pattern follow sincePeriod tailLines sched containers with
    | (invs, none) => (.fatal "panic: runtime error: index out of range", psInvocation :: invs)
    | (invs, some rs) =>
      if follow then (.streaming, psInvocation :: invs)
      else (.batch (collectBatch rs), psInvocation :: invs)

/-- The whole command: cobra runs `PreRunE`, then `RunE` (argument
validation, then `runSearch`).  The second component is the list of argv
vectors of every subprocess the run spawned. -/
def rootCmdExecute (args : List String) (follow : Bool) (tailLines : Int)
    (sincePeriod : String) (ps : Except String String)
    (sched : String → List (List String)) : RunResult × List (List String) :=
  match preRunE sincePeriod tailLines with
  | .error e => (.fatal e, [])
  | .ok _ =>
    match runEValidate args follow tailLines sincePeriod with
    | .error e => (.fatal e, [])
    | .ok pattern => runSearch pattern follow sincePeriod tailLines ps sched

example : stringsContains "hello error x" "error" = true := by decide
example : stringsContains "hello" "Hello" = false := by decide
example : stringsContains "abc" "" = true := by decide
example : (splitOnChar ':' "ab:cd".data).map String.mk = ["ab", "cd"] := by decide
example : enumerateSources ["abc", "i:n"] = none := by decide
example : enumerateSources ["", "i:n"] = some [("i", "n")] := by decide
example : (searchContainerLogs "c" "n" "" [["a"], ["b"]]).map (fun r => r.lineNum)
    = [1, 1] := by decide
example : preRunE "1x" 0 = .error "invalid time format for --since flag. Use h for hours, m for minutes, s for seconds (e.g., 1h, 30m, 24h)" := rfl
example : preRunE "1h" 0 = .ok () := rfl
example : runEValidate [] false 0 "" = .error "at least one of: pattern, --follow, --tail, or --since is required" := rfl
example : runEValidate ["err"] false 0 "" = .ok "err" := rfl

/-- Helper: the Go-style window scan is exactly list-infix containment. -/
theorem stringsContains_substring_iff (s sub : String) :
    stringsContains s sub = true ↔ sub.data <:+: s.data := by
  unfold stringsContains
  rw [List.any_eq_true]
  constructor
  · rintro ⟨i, _, h⟩
    rw [beq_iff_eq] at h
    have key : s.data.take i ++ ((s.data.drop i).take sub.data.length
        ++ (s.data.drop i).drop sub.data.length) = s.data := by
      rw [List.take_append_drop, List.take_append_drop]
    rw [h, ← List.append_assoc] at key
    exact ⟨s.data.take i, (s.data.drop i).drop sub.data.length, key⟩
  · rintro ⟨l, r, hlr⟩
    refine ⟨l.length, ?_, ?_⟩
    · rw [List.mem_range]
      have hlen : s.data.length = l.length + (sub.data.length + r.length) := by
        rw [← hlr]; simp
      omega
    · rw [beq_iff_eq, ← hlr, List.append_assoc, List.drop_left, List.take_left]

/-- Claim C3: the line matcher is a pure substring-containment predicate —
`stringsContains line pat` holds exactly when the pattern occurs in the line
as a contiguous substring, and the empty pattern matches every line. -/
theorem C3_line_matcher :
    (∀ line pat : String,
        stringsContains line pat = true ↔ pat.data <:+: line.data)
    ∧ (∀ line : String, stringsContains line "" = true) :=
  ⟨stringsContains_substring_iff,
   fun line => (stringsContains_substring_iff line "").mpr ⟨[], line.data, rfl⟩⟩

/-- Claim C8: the argv handed to the per-source log producer is exactly
`logs`, `--follow` iff follow, `--since v` iff since set, `--tail n` iff
tail positive, then the container id — `getDockerArgs` coincides with the
spec-side description `producerArgsSpec`. -/
theorem C8_producer_args (follow : Bool) (sincePeriod : String)
    (tailLines : Int) (containerID : String) :
    getDockerArgs follow sincePeriod tailLines containerID
      = producerArgsSpec follow sincePeriod tailLines containerID := by
  unfold getDockerArgs producerArgsSpec
  cases follow <;> by_cases hs : sincePeriod = "" <;>
    by_cases ht : (0 : Int) < tailLines <;> simp [hs, ht]

/-- Claim C1 fails on the code: with a pool of two workers and the delivered
stream `["a", "b"]` (pattern empty, so both lines match), the schedule that
hands `"a"` to the first worker and `"b"` to the second is a partition of the
stream, yet the emitted lineNum sequence is `[1, 1]` — duplicated, not the
strictly increasing gap-free `1, 2` the claim asserts, because each worker
keeps its own counter (main.go line 217). -/
theorem C1_numbering_not_sequential :
    [["a"], ["b"]].flatten = ["a", "b"]
    ∧ (searchContainerLogs "cid" "cname" "" [["a"], ["b"]]).map
        (fun r => r.lineNum) = [1, 1]
    ∧ ¬ List.Pairwise (fun a b => a < b)
        ((searchContainerLogs "cid" "cname" "" [["a"], ["b"]]).map
          (fun r => r.lineNum)) := by
  refine ⟨rfl, by decide, by decide⟩

/-- Claim C2 fails on the code: with lines `["a", "b"]` and pattern `"b"`,
the two-worker schedule that hands `"b"` to the second worker emits the
record for `"b"` with lineNum 1, although `"b"` is the second line of the
delivered stream; a single sequential counter (the reference numbering the
spec demands, and what a one-worker pool computes) assigns 2. -/
theorem C2_lineNum_not_stream_position :
    searchContainerLogs "cid" "cn" "b" [["a"], ["b"]]
      = [⟨"cid", "cn", "b", 1⟩]
    ∧ matcherWorker "cid" "cn" "b" 1 ["a", "b"] = [⟨"cid", "cn", "b", 2⟩] := by
  refine ⟨by decide, by decide⟩

/-- Claim C4, counterexample: the entry `"abc"` lacks the `id:name` form; the
claim says it is skipped and enumeration of the remaining well-formed entries
proceeds, but the code indexes `parts[1]` and panics (modelled `none`) — it
does not return the well-formed remainder, which on its own parses fine. -/
theorem C4_counterexample :
    enumerateSources ["abc", "i:n"] = none
    ∧ enumerateSources ["i:n"] = some [("i", "n")] := by
  refine ⟨by decide, by decide⟩

/-- Claim C4, amended: only blank entries are tolerated and skipped; a
non-blank entry without `:` makes the spawn loop panic instead of skipping. -/
theorem C4_amended_blank_skipped_colonless_panics (c : String) (cs : List String)
    (h1 : c ≠ "") (h2 : (splitOnChar ':' c.data).length = 1) :
    enumerateSources ("" :: cs) = enumerateSources cs
    ∧ enumerateSources (c :: cs) = none := by
  constructor
  · simp [enumerateSources]
  · obtain ⟨x, hx⟩ := List.length_eq_one.mp h2
    simp only [enumerateSources, if_neg h1, hx]

/-- Witness for the amended C4 at `c = "abc"`, `cs = ["i:n"]`. -/
theorem C4_amended_witness :
    (("abc" : String) ≠ "" ∧ (splitOnChar ':' ("abc" : String).data).length = 1)
    ∧ (enumerateSources ["", "i:n"] = enumerateSources ["i:n"]
       ∧ enumerateSources ["abc", "i:n"] = none) :=
  ⟨⟨by decide, by decide⟩,
   C4_amended_blank_skipped_colonless_panics "abc" ["i:n"] (by decide) (by decide)⟩

/-- Helper: one worker's emitted lines are exactly the matching lines of the
subsequence it received, in order, whatever its counter start is. -/
theorem matcherWorker_map_line (id name pat : String) (ls : List String) :
    ∀ n : Int, (matcherWorker id name pat n ls).map (fun r => r.line)
      = ls.filter (fun l => stringsContains l pat) := by
  induction ls with
  | nil => intro n; rfl
  | cons l rest ih =>
    intro n
    cases h : stringsContains l pat <;>
      simp [matcherWorker, h, ih, List.filter_cons]

/-- Helper: every record a worker emits carries the source's id and name. -/
theorem matcherWorker_mem (id name pat : String) (ls : List String) :
    ∀ (n : Int), ∀ r ∈ matcherWorker id name pat n ls,
      r.containerID = id ∧ r.containerName = name := by
  induction ls with
  | nil =>
    intro n r hr
    simp [matcherWorker] at hr
  | cons l rest ih =>
    intro n r hr
    cases h : stringsContains l pat <;> simp [matcherWorker, h] at hr
    · exact ih (n + 1) r hr
    · rcases hr with rfl | hr
      · exact ⟨rfl, rfl⟩
      · exact ih (n + 1) r hr

/-- Helper: the pool's emitted lines are the matching lines of the union of
the worker subsequences. -/
theorem searchContainerLogs_map_line (id name pat : String)
    (parts : List (List String)) :
    (searchContainerLogs id name pat parts).map (fun r => r.line)
      = (parts.flatten).filter (fun l => stringsContains l pat) := by
  induction parts with
  | nil => rfl
  | cons p ps ih =>
    simp only [searchContainerLogs, List.map_cons, List.flatten_cons,
      List.map_append, List.filter_append] at *
    rw [matcherWorker_map_line, ih]

/-- Claim C10: for every distribution of a source's delivered lines across
the matcher workers (any `parts` whose union is the delivered stream), the
multiset of emitted lines is exactly the multiset of delivered lines that
contain the pattern, and every record carries the source's id and name. -/
theorem C10_pool_matches_schedule_independent (id name pat : String)
    (ls : List String) (parts : List (List String))
    (hsched : parts.flatten.Perm ls) :
    ((searchContainerLogs id name pat parts).map (fun r => r.line)).Perm
      (ls.filter (fun l => stringsContains l pat))
    ∧ ∀ r ∈ searchContainerLogs id name pat parts,
        r.containerID = id ∧ r.containerName = name := by
  constructor
  · rw [searchContainerLogs_map_line]
    exact hsched.filter _
  · intro r hr
    unfold searchContainerLogs at hr
    rw [List.mem_flatten] at hr
    obtain ⟨l, hl, hrl⟩ := hr
    rw [List.mem_map] at hl
    obtain ⟨part, _, rfl⟩ := hl
    exact matcherWorker_mem id name pat part 1 r hrl

/-- Witness for C10 at a two-worker schedule that reorders the stream. -/
theorem C10_witness :
    ([["b"], ["a"]].flatten.Perm ["a", "b"])
    ∧ ((searchContainerLogs "i" "n" "b" [["b"], ["a"]]).map
        (fun r => r.line)).Perm
        (["a", "b"].filter (fun l => stringsContains l "b"))
    ∧ ((⟨"i", "n", "b", 1⟩ : Result).containerID = "i"
        ∧ (⟨"i", "n", "b", 1⟩ : Result).containerName = "n") :=
  ⟨by decide,
   (C10_pool_matches_schedule_independent "i" "n" "b" ["a", "b"]
      [["b"], ["a"]] (by decide)).1,
   (C10_pool_matches_schedule_independent "i" "n" "b" ["a", "b"]
      [["b"], ["a"]] (by decide)).2 ⟨"i", "n", "b", 1⟩ (by decide)⟩

/-- Claim C9: in batch mode, totalMatches is the sum of the group sizes,
every group's size is the number of received records carrying that source
name, and an empty delivery stream (zero sources) gives zero groups and
totalMatches zero. -/
theorem C9_batch_aggregation (rs : List Result) :
    (collectBatch rs).totalMatches
      = ((collectBatch rs).groups.map (fun g => g.2.length)).sum
    ∧ (∀ g ∈ (collectBatch rs).groups,
        g.2.length = (rs.filter (fun r => r.containerName == g.1)).length)
    ∧ (rs = [] → (collectBatch rs).groups = [] ∧ (collectBatch rs).totalMatches = 0) := by
  refine ⟨?_, ?_, ?_⟩
  · have hpt : ∀ n : String,
        (rs.filter (fun r => r.containerName == n)).length
          = List.count n (rs.map (fun r => r.containerName)) := by
      intro n
      rw [← List.countP_eq_length_filter, List.count_eq_countP, List.countP_map]
      rfl
    have hsum := List.sum_map_count_dedup_eq_length
      (rs.map (fun r => r.containerName))
    rw [List.length_map] at hsum
    have hmap : ((collectBatch rs).groups.map (fun g => g.2.length))
        = ((rs.map (fun r => r.containerName)).dedup).map
            (fun n => (rs.filter (fun r => r.containerName == n)).length) := by
      simp [collectBatch, List.map_map, Function.comp_def]
    rw [hmap]
    show rs.length = _
    simp only [hpt]
    exact hsum.symm
  · intro g hg
    simp only [collectBatch, List.mem_map] at hg
    obtain ⟨n, _, rfl⟩ := hg
    rfl
  · rintro rfl
    exact ⟨rfl, rfl⟩

/-- Witness for C9 at a three-record delivery stream over two sources. -/
theorem C9_witness :
    ((collectBatch [⟨"i1", "A", "x", 1⟩, ⟨"i2", "B", "y", 1⟩,
        ⟨"i1", "A", "z", 2⟩]).totalMatches
      = (((collectBatch [⟨"i1", "A", "x", 1⟩, ⟨"i2", "B", "y", 1⟩,
          ⟨"i1", "A", "z", 2⟩]).groups).map (fun g => g.2.length)).sum)
    ∧ (("A", [⟨"i1", "A", "x", 1⟩, (⟨"i1", "A", "z", 2⟩ : Result)])
        ∈ (collectBatch [⟨"i1", "A", "x", 1⟩, ⟨"i2", "B", "y", 1⟩,
            ⟨"i1", "A", "z", 2⟩]).groups)
    ∧ ([⟨"i1", "A", "x", 1⟩, (⟨"i1", "A", "z", 2⟩ : Result)].length
        = ([⟨"i1", "A", "x", 1⟩, ⟨"i2", "B", "y", 1⟩,
            (⟨"i1", "A", "z", 2⟩ : Result)].filter
              (fun r => r.containerName == "A")).length)
    ∧ ((collectBatch []).groups = []
        ∧ (collectBatch ([] : List Result)).totalMatches = 0) :=
  ⟨(C9_batch_aggregation [⟨"i1", "A", "x", 1⟩, ⟨"i2", "B", "y", 1⟩,
      ⟨"i1", "A", "z", 2⟩]).1,
   by decide,
   (C9_batch_aggregation [⟨"i1", "A", "x", 1⟩, ⟨"i2", "B", "y", 1⟩,
      ⟨"i1", "A", "z", 2⟩]).2.1
     ("A", [⟨"i1", "A", "x", 1⟩, ⟨"i1", "A", "z", 2⟩]) (by decide),
   (C9_batch_aggregation []).2.2 rfl⟩

/-- Claim C5: with empty pattern, follow off, tail 0 and since unset the run
is rejected by the `RunE` validation before any subprocess is spawned (empty
invocation trace, fatal outcome, non-zero exit); conversely, when at least
one of pattern, follow, positive tail or a set since is present, that
validation accepts. -/
theorem C5_nothing_to_do_validation (args : List String) (follow : Bool)
    (tailLines : Int) (sincePeriod : String) (ps : Except String String)
    (sched : String → List (List String)) :
    (args.headD "" = "" → follow = false → tailLines = 0 → sincePeriod = "" →
      args.length ≤ 1 →
      (rootCmdExecute args follow tailLines sincePeriod ps sched).2 = []
      ∧ exitCode (rootCmdExecute args follow tailLines sincePeriod ps sched).1 ≠ 0
      ∧ ∃ m, (rootCmdExecute args follow tailLines sincePeriod ps sched).1
          = RunResult.fatal m)
    ∧ (args.length ≤ 1 →
      (args.headD "" ≠ "" ∨ follow = true ∨ 0 < tailLines ∨ sincePeriod ≠ "") →
      ∃ p, runEValidate args follow tailLines sincePeriod = Except.ok p) := by
  constructor
  · intro hp hf ht hs hlen
    subst hf; subst ht; subst hs
    have hval : runEValidate args false 0 "" =
        Except.error "at least one of: pattern, --follow, --tail, or --since is required" := by
      simp only [runEValidate]
      rw [if_neg (by omega : ¬ args.length > 1)]
      rw [List.headD_eq_head?] at hp
      simp [hp]
    have hrun : rootCmdExecute args false 0 "" ps sched
        = (RunResult.fatal "at least one of: pattern, --follow, --tail, or --since is required", []) := by
      unfold rootCmdExecute
      rw [show preRunE "" 0 = Except.ok () from rfl, hval]
    rw [hrun]
    exact ⟨rfl, by simp [exitCode], ⟨_, rfl⟩⟩
  · intro hlen hone
    have hcond : (args.head?.getD "" == "" && !follow && tailLines == 0
        && sincePeriod == "") = false := by
      rcases hone with h | h | h | h
      · rw [List.headD_eq_head?] at h
        simp [h]
      · simp [h]
      · simp only [Bool.and_eq_false_iff]
        refine Or.inl (Or.inr ?_)
        simp only [beq_eq_false_iff_ne]
        omega
      · simp [h]
    refine ⟨args.headD "", ?_⟩
    simp only [runEValidate]
    rw [if_neg (by omega : ¬ args.length > 1)]
    simp [hcond]

/-- Witness for C5: the empty invocation is rejected with no subprocess, and
a lone pattern argument passes the validation. -/
theorem C5_witness :
    (([] : List String).headD "" = "" ∧ false = false ∧ (0 : Int) = 0
      ∧ ("" : String) = "" ∧ ([] : List String).length ≤ 1)
    ∧ ((rootCmdExecute [] false 0 "" (Except.ok "") (fun _ => [])).2 = []
      ∧ exitCode (rootCmdExecute [] false 0 "" (Except.ok "") (fun _ => [])).1 ≠ 0
      ∧ ∃ m, (rootCmdExecute [] false 0 "" (Except.ok "") (fun _ => [])).1
          = RunResult.fatal m)
    ∧ (∃ p, runEValidate ["err"] false 0 "" = Except.ok p) :=
  ⟨⟨rfl, rfl, rfl, rfl, by decide⟩,
   (C5_nothing_to_do_validation [] false 0 "" (Except.ok "") (fun _ => [])).1
     rfl rfl rfl rfl (by decide),
   (C5_nothing_to_do_validation ["err"] false 0 "" (Except.ok "") (fun _ => [])).2
     (by decide) (Or.inl (by decide))⟩

/-- Claim C6: a set `--since` value whose suffix is none of `h`, `m`, `s`
makes `PreRunE` fail: the run ends fatally with a non-zero exit and an empty
invocation trace — no enumeration call, no per-source stream.  (An empty
since string is "unset" in the data model and is not covered: the code treats
it as the flag's absence.) -/
theorem C6_invalid_since_fatal (args : List String) (follow : Bool)
    (tailLines : Int) (sincePeriod : String) (ps : Except String String)
    (sched : String → List (List String))
    (h0 : sincePeriod ≠ "")
    (h1 : hasSuffix sincePeriod "h" = false)
    (h2 : hasSuffix sincePeriod "m" = false)
    (h3 : hasSuffix sincePeriod "s" = false) :
    (rootCmdExecute args follow tailLines sincePeriod ps sched).2 = []
    ∧ exitCode (rootCmdExecute args follow tailLines sincePeriod ps sched).1 ≠ 0
    ∧ ∃ m, (rootCmdExecute args follow tailLines sincePeriod ps sched).1
        = RunResult.fatal m := by
  have hpre : preRunE sincePeriod tailLines =
      Except.error "invalid time format for --since flag. Use h for hours, m for minutes, s for seconds (e.g., 1h, 30m, 24h)" := by
    unfold preRunE
    rw [if_pos]
    simp [bne_iff_ne, h0, h1, h2, h3]
  have hrun : rootCmdExecute args follow tailLines sincePeriod ps sched
      = (RunResult.fatal "invalid time format for --since flag. Use h for hours, m for minutes, s for seconds (e.g., 1h, 30m, 24h)", []) := by
    unfold rootCmdExecute
    rw [hpre]
  rw [hrun]
  exact ⟨rfl, by simp [exitCode], ⟨_, rfl⟩⟩

/-- Witness for C6 at `--since "1x"`. -/
theorem C6_witness :
    (("1x" : String) ≠ "" ∧ hasSuffix "1x" "h" = false
      ∧ hasSuffix "1x" "m" = false ∧ hasSuffix "1x" "s" = false)
    ∧ ((rootCmdExecute ["err"] false 0 "1x" (Except.ok "") (fun _ => [])).2 = []
      ∧ exitCode (rootCmdExecute ["err"] false 0 "1x" (Except.ok "") (fun _ => [])).1 ≠ 0
      ∧ ∃ m, (rootCmdExecute ["err"] false 0 "1x" (Except.ok "") (fun _ => [])).1
          = RunResult.fatal m) :=
  ⟨⟨by decide, by decide, by decide, by decide⟩,
   C6_invalid_since_fatal ["err"] false 0 "1x" (Except.ok "") (fun _ => [])
     (by decide) (by decide) (by decide) (by decide)⟩

/-- Claim C7: when the enumeration subprocess fails, the run ends fatally
(non-zero exit), the invocation trace contains at most the enumeration call
itself (so no per-source pipeline was spawned), and the outcome is never a
batch AggregateResult, partially populated or otherwise. -/
theorem C7_enumeration_failure_fatal (args : List String) (follow : Bool)
    (tailLines : Int) (sincePeriod : String) (e : String)
    (sched : String → List (List String)) (ps : Except String String)
    (hps : ps = Except.error e) :
    (∃ m, (rootCmdExecute args follow tailLines sincePeriod ps sched).1
        = RunResult.fatal m)
    ∧ exitCode (rootCmdExecute args follow tailLines sincePeriod ps sched).1 ≠ 0
    ∧ ((rootCmdExecute args follow tailLines sincePeriod ps sched).2 = []
        ∨ (rootCmdExecute args follow tailLines sincePeriod ps sched).2
            = [psInvocation])
    ∧ ∀ agg, (rootCmdExecute args follow tailLines sincePeriod ps sched).1
        ≠ RunResult.batch agg := by
  subst hps
  unfold rootCmdExecute
  cases hpre : preRunE sincePeriod tailLines with
  | error m => exact ⟨⟨m, rfl⟩, by simp [exitCode], Or.inl rfl, by simp⟩
  | ok u =>
    dsimp only
    cases hval : runEValidate args follow tailLines sincePeriod with
    | error m => exact ⟨⟨m, rfl⟩, by simp [exitCode], Or.inl rfl, by simp⟩
    | ok p =>
      dsimp only
      have hr : runSearch p follow sincePeriod tailLines (Except.error e) sched
          = (RunResult.fatal ("error listing containers: " ++ e), [psInvocation]) := rfl
      rw [hr]
      exact ⟨⟨_, rfl⟩, by simp [exitCode], Or.inr rfl, by simp⟩

/-- Witness for C7 with a failing `docker ps`. -/
theorem C7_witness :
    ((Except.error "boom" : Except String String) = Except.error "boom")
    ∧ (∃ m, (rootCmdExecute ["err"] false 0 "" (Except.error "boom")
        (fun _ => [])).1 = RunResult.fatal m)
    ∧ exitCode (rootCmdExecute ["err"] false 0 "" (Except.error "boom")
        (fun _ => [])).1 ≠ 0
    ∧ ((rootCmdExecute ["err"] false 0 "" (Except.error "boom")
        (fun _ => [])).2 = []
      ∨ (rootCmdExecute ["err"] false 0 "" (Except.error "boom")
          (fun _ => [])).2 = [psInvocation])
    ∧ (rootCmdExecute ["err"] false 0 "" (Except.error "boom")
        (fun _ => [])).1 ≠ RunResult.batch (collectBatch []) :=
  ⟨rfl,
   (C7_enumeration_failure_fatal ["err"] false 0 "" "boom" (fun _ => [])
      (Except.error "boom") rfl).1,
   (C7_enumeration_failure_fatal ["err"] false 0 "" "boom" (fun _ => [])
      (Except.error "boom") rfl).2.1,
   (C7_enumeration_failure_fatal ["err"] false 0 "" "boom" (fun _ => [])
      (Except.error "boom") rfl).2.2.1,
   (C7_enumeration_failure_fatal ["err"] false 0 "" "boom" (fun _ => [])
      (Except.error "boom") rfl).2.2.2 (collectBatch [])⟩
